import Mathlib

/-!
Shallow embedding of the iway proxy server (TUIC v5 / Trojan) protocol
engine, translated from the Rust sources under src/.

Bytes are modelled as natural numbers (reachable wire bytes are < 256);
byte streams are lists, and the async readers become pure functions
List Nat -> Option (result, remaining stream), where Option.none stands
for any read or parse failure.  Machine-integer casts from the source
(as u8, as u16) are written as explicit reductions modulo 2^8 / 2^16.
Rust panics (assert, out-of-bounds Vec indexing) are modelled by an
Option result on the enclosing operation, with Option.none as the panic.
-/

set_option linter.unusedVariables false

/-- Reads one byte from the stream, as tokio read_u8. -/
def readU8 : List Nat → Option (Nat × List Nat)
  | [] => Option.none
  | b :: r => some (b, r)

/-- Reads k bytes big-endian into a number, as tokio read_u16 / read_u32 / read_u128. -/
def readBE : Nat → List Nat → Option (Nat × List Nat)
  | 0, l => some (0, l)
  | _ + 1, [] => Option.none
  | k + 1, b :: r =>
    match readBE k r with
    | Option.none => Option.none
    | some (v, rest) => some (b * 256 ^ k + v, rest)

/-- Reads exactly n bytes, as read_exact; fails on a short stream. -/
def readExact (n : Nat) (l : List Nat) : Option (List Nat × List Nat) :=
  if n ≤ l.length then some (l.take n, l.drop n) else Option.none

/-- Writes v as k big-endian bytes, as put_u16 / put_u32 / put_u128
(the cast truncates values modulo 2 ^ (8 * k), like the Rust types do). -/
def writeBE : Nat → Nat → List Nat
  | 0, _ => []
  | k + 1, v => (v / 256 ^ k) % 256 :: writeBE k v

/-- UTF-8 validity of a byte sequence, mirroring what String::from_utf8
accepts: no overlong forms, no surrogates, nothing beyond U+10FFFF. -/
def isContByte (c : Nat) : Bool := 0x80 ≤ c && c ≤ 0xBF

def validUtf8 : List Nat → Bool
  | [] => true
  | b :: rest =>
    if b ≤ 0x7F then validUtf8 rest
    else if 0xC2 ≤ b && b ≤ 0xDF then
      match rest with
      | c1 :: r => isContByte c1 && validUtf8 r
      | [] => false
    else if b == 0xE0 then
      match rest with
      | c1 :: c2 :: r => (0xA0 ≤ c1 && c1 ≤ 0xBF) && isContByte c2 && validUtf8 r
      | _ => false
    else if (0xE1 ≤ b && b ≤ 0xEC) || b == 0xEE || b == 0xEF then
      match rest with
      | c1 :: c2 :: r => isContByte c1 && isContByte c2 && validUtf8 r
      | _ => false
    else if b == 0xED then
      match rest with
      | c1 :: c2 :: r => (0x80 ≤ c1 && c1 ≤ 0x9F) && isContByte c2 && validUtf8 r
      | _ => false
    else if b == 0xF0 then
      match rest with
      | c1 :: c2 :: c3 :: r =>
        (0x90 ≤ c1 && c1 ≤ 0xBF) && isContByte c2 && isContByte c3 && validUtf8 r
      | _ => false
    else if 0xF1 ≤ b && b ≤ 0xF3 then
      match rest with
      | c1 :: c2 :: c3 :: r => isContByte c1 && isContByte c2 && isContByte c3 && validUtf8 r
      | _ => false
    else if b == 0xF4 then
      match rest with
      | c1 :: c2 :: c3 :: r =>
        (0x80 ≤ c1 && c1 ≤ 0x8F) && isContByte c2 && isContByte c3 && validUtf8 r
      | _ => false
    else false

/-- Address type tags of the TUIC address codec
(src/protocol/tuic/address.rs, enum AddressType). -/
inductive AddressType where
  | domain
  | ipV4
  | ipV6
  | none
deriving DecidableEq, Repr

/-- TryFrom u8 for AddressType: 0x00 Domain, 0x01 IPv4, 0x02 IPv6, 0xFF None. -/
def AddressType.tryFrom (value : Nat) : Option AddressType :=
  if value = 0x00 then some AddressType.domain
  else if value = 0x01 then some AddressType.ipV4
  else if value = 0x02 then some AddressType.ipV6
  else if value = 0xFF then some AddressType.none
  else Option.none

def AddressType.toByte : AddressType → Nat
  | AddressType.domain => 0x00
  | AddressType.ipV4 => 0x01
  | AddressType.ipV6 => 0x02
  | AddressType.none => 0xFF

/-- A resolved socket address (std::net::SocketAddr), ip held as its
numeric value. -/
inductive SockAddr where
  | v4 (ip : Nat) (port : Nat)
  | v6 (ip : Nat) (port : Nat)
deriving DecidableEq, Repr

/-- The TUIC Address (src/protocol/tuic/address.rs, enum Address).  The
cache field is the serialized byte form kept alongside the parsed value,
exactly as in the source; the Rust String of a domain is kept as its
UTF-8 bytes. -/
inductive Address where
  | socketAddress (sa : SockAddr) (cache : List Nat)
  | domainAddress (name : List Nat) (port : Nat) (cache : List Nat)
  | none
deriving DecidableEq, Repr

/-- Address::write_to_buf: socket and domain addresses emit their cache,
Address::None emits the single byte 0xFF. -/
def Address.write_to_buf : Address → List Nat
  | Address.socketAddress _ cache => cache
  | Address.domainAddress _ _ cache => cache
  | Address.none => [0xFF]

/-- Address::read_from, translated step for step: tag byte, then the
variant body, building the cache in the same order the source does. -/
def Address.read_from (l : List Nat) : Option (Address × List Nat) :=
  match readU8 l with
  | Option.none => Option.none
  | some (tagByte, r0) =>
    match AddressType.tryFrom tagByte with
    | Option.none => Option.none
    | some AddressType.domain =>
      match readU8 r0 with
      | Option.none => Option.none
      | some (len, r1) =>
        match readExact len r1 with
        | Option.none => Option.none
        | some (domainBuf, r2) =>
          if validUtf8 domainBuf then
            match readBE 2 r2 with
            | Option.none => Option.none
            | some (port, r3) =>
              some (Address.domainAddress domainBuf port
                (AddressType.domain.toByte :: len :: (domainBuf ++ writeBE 2 port)), r3)
          else Option.none
    | some AddressType.ipV4 =>
      match readBE 4 r0 with
      | Option.none => Option.none
      | some (ipValue, r1) =>
        match readBE 2 r1 with
        | Option.none => Option.none
        | some (port, r2) =>
          some (Address.socketAddress (SockAddr.v4 ipValue port)
            (AddressType.ipV4.toByte :: (writeBE 4 ipValue ++ writeBE 2 port)), r2)
    | some AddressType.ipV6 =>
      match readBE 16 r0 with
      | Option.none => Option.none
      | some (ipValue, r1) =>
        match readBE 2 r1 with
        | Option.none => Option.none
        | some (port, r2) =>
          some (Address.socketAddress (SockAddr.v6 ipValue port)
            (AddressType.ipV6.toByte :: (writeBE 16 ipValue ++ writeBE 2 port)), r2)
    | some AddressType.none => some (Address.none, r0)

/-- Protocol version (src/protocol/tuic/version.rs); only V5 exists. -/
inductive Version where
  | v5
deriving DecidableEq, Repr

def Version.tryFrom (value : Nat) : Option Version :=
  if value = 0x05 then some Version.v5 else Option.none

def Version.toByte : Version → Nat
  | Version.v5 => 0x05

/-- TUIC command tags (src/protocol/tuic/command/command_type.rs). -/
inductive CommandType where
  | authenticate
  | connect
  | packet
  | dissociate
  | heartbeat
deriving DecidableEq, Repr

def CommandType.tryFrom (value : Nat) : Option CommandType :=
  if value = 0x00 then some CommandType.authenticate
  else if value = 0x01 then some CommandType.connect
  else if value = 0x02 then some CommandType.packet
  else if value = 0x03 then some CommandType.dissociate
  else if value = 0x04 then some CommandType.heartbeat
  else Option.none

def CommandType.toByte : CommandType → Nat
  | CommandType.authenticate => 0x00
  | CommandType.connect => 0x01
  | CommandType.packet => 0x02
  | CommandType.dissociate => 0x03
  | CommandType.heartbeat => 0x04

/-- TUIC frame header (src/protocol/tuic/header.rs). -/
structure Header where
  version : Version
  command_type : CommandType
deriving DecidableEq, Repr

def Header.new (ct : CommandType) : Header :=
  { version := Version.v5, command_type := ct }

def Header.write_to (h : Header) : List Nat :=
  [h.version.toByte, h.command_type.toByte]

def Header.read_from (l : List Nat) : Option (Header × List Nat) :=
  match readU8 l with
  | Option.none => Option.none
  | some (vb, r1) =>
    match Version.tryFrom vb with
    | Option.none => Option.none
    | some ver =>
      match readU8 r1 with
      | Option.none => Option.none
      | some (cb, r2) =>
        match CommandType.tryFrom cb with
        | Option.none => Option.none
        | some ct => some ({ version := ver, command_type := ct }, r2)

/-- The Packet command (src/protocol/tuic/command/packet.rs).  Numeric
fields carry the machine-type bounds of the source (u16 / u8) only in
reachable values; the embedding keeps them as Nat. -/
structure Packet where
  header : Header
  assoc_id : Nat
  pkt_id : Nat
  frag_total : Nat
  frag_id : Nat
  size : Nat
  address : Address
  payload : List Nat
deriving DecidableEq, Repr

def MAX_PAYLOAD_PER_PACKET : Nat := 1200

/-- Ceiling division, as usize::div_ceil. -/
def divCeil (a b : Nat) : Nat := (a + b - 1) / b

/-- slice::chunks(MAX_PAYLOAD_PER_PACKET): splits a byte slice into
consecutive chunks of at most 1200 bytes; the empty slice has no chunks. -/
def chunksMax : List Nat → List (List Nat)
  | [] => []
  | b :: r =>
    (b :: r).take MAX_PAYLOAD_PER_PACKET :: chunksMax ((b :: r).drop MAX_PAYLOAD_PER_PACKET)
termination_by l => l.length
decreasing_by
  simp only [List.length_drop, List.length_cons, MAX_PAYLOAD_PER_PACKET]
  omega

/-- Packet::get_packets_from: fragments a payload at mtu 1200.  The
frag_total and frag_id casts to u8, and the chunk-size cast to u16, are
the source casts written out; only the fragment at index 0 carries the
given address, later fragments carry Address::None. -/
def Packet.get_packets_from (full_payload : List Nat) (assoc_id pkt_id : Nat)
    (address : Address) : List Packet :=
  let total_len := full_payload.length
  let frag_total := (divCeil total_len MAX_PAYLOAD_PER_PACKET) % 256
  (chunksMax full_payload).enum.map (fun fc =>
    { header := Header.new CommandType.packet
      assoc_id := assoc_id
      pkt_id := pkt_id
      frag_total := frag_total
      frag_id := fc.1 % 256
      size := fc.2.length % 65536
      address := if 0 < fc.1 then Address.none else address
      payload := fc.2 })

/-- Packet::write_to_buf: header, then the fixed fields big-endian, then
the address bytes, then the raw payload. -/
def Packet.write_to_buf (p : Packet) : List Nat :=
  p.header.write_to ++ writeBE 2 p.assoc_id ++ writeBE 2 p.pkt_id ++
    [p.frag_total % 256] ++ [p.frag_id % 256] ++ writeBE 2 p.size ++
    p.address.write_to_buf ++ p.payload

/-- Packet::read_from: fixed fields, address, then exactly size payload
bytes. -/
def Packet.read_from (header : Header) (l : List Nat) : Option (Packet × List Nat) :=
  match readBE 2 l with
  | Option.none => Option.none
  | some (assoc_id, r1) =>
    match readBE 2 r1 with
    | Option.none => Option.none
    | some (pkt_id, r2) =>
      match readU8 r2 with
      | Option.none => Option.none
      | some (frag_total, r3) =>
        match readU8 r3 with
        | Option.none => Option.none
        | some (frag_id, r4) =>
          match readBE 2 r4 with
          | Option.none => Option.none
          | some (size, r5) =>
            match Address.read_from r5 with
            | Option.none => Option.none
            | some (address, r6) =>
              match readExact size r6 with
              | Option.none => Option.none
              | some (payload, r7) =>
                some ({ header := header, assoc_id := assoc_id, pkt_id := pkt_id,
                        frag_total := frag_total, frag_id := frag_id, size := size,
                        address := address, payload := payload }, r7)

/-- Packet::only_one_frag. -/
def Packet.only_one_frag (p : Packet) : Bool := p.frag_total == 1

/-- The Authenticate command body (src/protocol/tuic/command/authenticate.rs):
16 uuid bytes and 32 token bytes. -/
structure Authenticate where
  header : Header
  uuid : List Nat
  token : List Nat
deriving DecidableEq, Repr

def Authenticate.read_from (header : Header) (l : List Nat) :
    Option (Authenticate × List Nat) :=
  match readExact 16 l with
  | Option.none => Option.none
  | some (uuidBuf, r1) =>
    match readExact 32 r1 with
    | Option.none => Option.none
    | some (tokenBuf, r2) =>
      some ({ header := header, uuid := uuidBuf, token := tokenBuf }, r2)

/-- The Connect command body (src/protocol/tuic/command/connect.rs). -/
structure Connect where
  header : Header
  address : Address
deriving DecidableEq, Repr

def Connect.read_from (header : Header) (l : List Nat) : Option (Connect × List Nat) :=
  match Address.read_from l with
  | Option.none => Option.none
  | some (address, r1) => some ({ header := header, address := address }, r1)

/-- The Dissociate command body (src/protocol/tuic/command/dissociate.rs). -/
structure Dissociate where
  header : Header
  asso_id : Nat
deriving DecidableEq, Repr

def Dissociate.read_from (header : Header) (l : List Nat) : Option (Dissociate × List Nat) :=
  match readBE 2 l with
  | Option.none => Option.none
  | some (asso_id, r1) => some ({ header := header, asso_id := asso_id }, r1)

/-- The Command sum (src/protocol/tuic/command/command.rs). -/
inductive Command where
  | authenticate (a : Authenticate)
  | connect (c : Connect)
  | packet (p : Packet)
  | heartbeat (header : Header)
  | dissociate (d : Dissociate)
deriving DecidableEq, Repr

/-- Command::read_from: header first, then dispatch on the command tag
(Heartbeat has an empty body). -/
def Command.read_from (l : List Nat) : Option (Command × List Nat) :=
  match Header.read_from l with
  | Option.none => Option.none
  | some (h, r) =>
    match h.command_type with
    | CommandType.authenticate =>
      match Authenticate.read_from h r with
      | Option.none => Option.none
      | some (a, rest) => some (Command.authenticate a, rest)
    | CommandType.connect =>
      match Connect.read_from h r with
      | Option.none => Option.none
      | some (c, rest) => some (Command.connect c, rest)
    | CommandType.packet =>
      match Packet.read_from h r with
      | Option.none => Option.none
      | some (p, rest) => some (Command.packet p, rest)
    | CommandType.dissociate =>
      match Dissociate.read_from h r with
      | Option.none => Option.none
      | some (d, rest) => some (Command.dissociate d, rest)
    | CommandType.heartbeat => some (Command.heartbeat h, r)

/-- Association-list lookup for the hash / dash maps of the source. -/
def alLookup {β : Type} (k : Nat) : List (Nat × β) → Option β
  | [] => Option.none
  | (k2, v) :: r => if k = k2 then some v else alLookup k r

/-- Insert-or-replace, as HashMap::insert / DashMap entry insertion. -/
def alUpsert {β : Type} (k : Nat) (v : β) : List (Nat × β) → List (Nat × β)
  | [] => [(k, v)]
  | (k2, v2) :: r => if k = k2 then (k, v) :: r else (k2, v2) :: alUpsert k v r

/-- Key removal, as HashMap::remove / DashMap::remove. -/
def alRemove {β : Type} (k : Nat) : List (Nat × β) → List (Nat × β)
  | [] => []
  | (k2, v2) :: r => if k = k2 then r else (k2, v2) :: alRemove k r

/-- Population count of a 128-bit bitmap, as u128::count_ones: the
number of set bits among positions 0..127. -/
def countOnes128 (n : Nat) : Nat :=
  ((List.range 128).filter (fun i => n.testBit i)).length

/-- Error kinds of the reassembly store
(src/processor/tuic/udp_session_manager.rs, enum UdpError). -/
inductive UdpError where
  | sessionTooLarge
  | invalidFragmentId
deriving DecidableEq, Repr

/-- ReassemblyBuffer (src/processor/tuic/udp_session_manager.rs).  The
Instant clock is modelled as a Nat timestamp supplied by the caller. -/
structure ReassemblyBuffer where
  frag_total : Nat
  fragments : List (Option (List Nat))
  received_bitmap : Nat
  received_count : Nat
  total_bytes : Nat
  last_update : Nat
deriving DecidableEq, Repr

/-- ReassemblyBuffer::new.  The source asserts frag_total <= 128 and
panics otherwise; the panic is Option.none here. -/
def ReassemblyBuffer.new (frag_total : Nat) (now : Nat) : Option ReassemblyBuffer :=
  if frag_total ≤ 128 then
    some { frag_total := frag_total
           fragments := List.replicate frag_total Option.none
           received_bitmap := 0
           received_count := 0
           total_bytes := 0
           last_update := now }
  else Option.none

/-- ReassemblyBuffer::insert, translated step for step: bounds check on
frag_id, duplicate check against the bitmap, optional per-session byte
cap, then record the fragment; on the last fragment the payloads are
concatenated in ascending frag_id order.  The pair returned is the Rust
result together with the buffer state after the call. -/
def ReassemblyBuffer.insert (b : ReassemblyBuffer) (frag_id : Nat) (payload : List Nat)
    (max_total_bytes : Option Nat) (now : Nat) :
    Except UdpError (Option (List Nat)) × ReassemblyBuffer :=
  let idx := frag_id
  if h1 : b.fragments.length ≤ idx then (Except.error UdpError.invalidFragmentId, b)
  else if b.received_bitmap.testBit idx then (Except.ok Option.none, b)
  else
    let payload_len := payload.length
    let tooLarge :=
      match max_total_bytes with
      | some max => decide (max < b.total_bytes + payload_len)
      | Option.none => false
    if tooLarge then (Except.error UdpError.sessionTooLarge, b)
    else
      let b2 : ReassemblyBuffer :=
        { b with fragments := b.fragments.set idx (some payload)
                 received_bitmap := b.received_bitmap ||| 2 ^ idx
                 received_count := b.received_count + 1
                 total_bytes := b.total_bytes + payload_len
                 last_update := now }
      if b2.received_count = b2.frag_total then
        if b2.fragments.all (fun f => f.isSome) then
          (Except.ok (some ((b2.fragments.filterMap id).flatten)), b2)
        else
          (Except.error UdpError.invalidFragmentId, b2)
      else (Except.ok Option.none, b2)

/-- A client endpoint (SocketAddr of the QUIC peer), abstracted to an
identifier. -/
abbrev Client := Nat

/-- The session map of UdpSessionManager, keyed by (client, assoc_id).
The dashmap is modelled as an association list on a paired key (encoded
through a Nat pairing to reuse the alist helpers is avoided; a dedicated
list is used instead). -/
abbrev MgrSessions := List ((Client × Nat) × ReassemblyBuffer)

def mgrLookup (k : Client × Nat) : MgrSessions → Option ReassemblyBuffer
  | [] => Option.none
  | (k2, v) :: r => if k = k2 then some v else mgrLookup k r

def mgrUpsert (k : Client × Nat) (v : ReassemblyBuffer) : MgrSessions → MgrSessions
  | [] => [(k, v)]
  | (k2, v2) :: r => if k = k2 then (k, v) :: r else (k2, v2) :: mgrUpsert k v r

def mgrRemove (k : Client × Nat) : MgrSessions → MgrSessions
  | [] => []
  | (k2, v2) :: r => if k = k2 then r else (k2, v2) :: mgrRemove k r

/-- UdpSessionManager::remove_session (used by DissociateProcess): drops
the reassembly buffer for (client, assoc_id) when present, otherwise a
no-op. -/
def UdpSessionManager.remove_session (sessions : MgrSessions) (client : Client)
    (assoc_id : Nat) : MgrSessions :=
  mgrRemove (client, assoc_id) sessions

/-- A fragment view of a Packet
(src/processor/tuic/udp_session_manager.rs, UdpFragment). -/
structure UdpFragment where
  assoc_id : Nat
  pkt_id : Nat
  frag_id : Nat
  frag_total : Nat
  payload : List Nat
deriving DecidableEq, Repr

/-- UdpSessionManager::receive_fragment without the optional max_sessions
eviction (both caps default to None and are only set from optional
configuration): occupied entries insert into the existing buffer,
completing or dropping it as the insert result dictates, vacant entries
first reject frag_total > 128, then build a fresh buffer.  Option.none of
the outer layer is a panic, which the frag_total guard makes unreachable. -/
def UdpSessionManager.receive_fragment (sessions : MgrSessions) (frag : UdpFragment)
    (client : Client) (max_reassembly : Option Nat) (now : Nat) :
    Option (Option (List Nat) × MgrSessions) :=
  let key := (client, frag.assoc_id)
  match mgrLookup key sessions with
  | some buffer =>
    match ReassemblyBuffer.insert buffer frag.frag_id frag.payload max_reassembly now with
    | (Except.ok (some bytes), _) => some (some bytes, mgrRemove key sessions)
    | (Except.ok Option.none, b2) => some (Option.none, mgrUpsert key b2 sessions)
    | (Except.error e, b2) =>
      if e = UdpError.sessionTooLarge then some (Option.none, mgrRemove key sessions)
      else some (Option.none, mgrUpsert key b2 sessions)
  | Option.none =>
    if 128 < frag.frag_total then some (Option.none, sessions)
    else
      match ReassemblyBuffer.new frag.frag_total now with
      | Option.none => Option.none
      | some buffer =>
        match ReassemblyBuffer.insert buffer frag.frag_id frag.payload max_reassembly now with
        | (Except.ok (some bytes), _) => some (some bytes, sessions)
        | (Except.ok Option.none, b2) => some (Option.none, mgrUpsert key b2 sessions)
        | (Except.error _, _) => some (Option.none, sessions)

/-- FragmentedPacket (src/processor/tuic/session.rs). -/
structure FragmentedPacket where
  fragment_count : Nat
  received_bitmap : Nat
  received : List (Option (List Nat))
deriving DecidableEq, Repr

/-- UdpSessionInner (src/processor/tuic/session.rs): the per-assoc
fragment table keyed by pkt_id and the remembered destination address. -/
structure UdpSessionState where
  pakets : List (Nat × FragmentedPacket)
  address : Option Address
deriving DecidableEq, Repr

def UdpSession.new : UdpSessionState :=
  { pakets := [], address := Option.none }

/-- UdpSession::accept, translated step for step.  The source indexes
received[frag_id] without a bounds check in both branches; an
out-of-range index is a Rust panic, modelled as Option.none. -/
def UdpSession.accept (s : UdpSessionState) (packet : Packet) :
    Option (Option Nat × UdpSessionState) :=
  let s1 := if packet.address ≠ Address.none then { s with address := some packet.address } else s
  match alLookup packet.pkt_id s1.pakets with
  | some frag_pkt =>
    let step : Option FragmentedPacket :=
      if frag_pkt.received_bitmap.testBit packet.frag_id then some frag_pkt
      else if packet.frag_id < frag_pkt.received.length then
        some { frag_pkt with
                 received := frag_pkt.received.set packet.frag_id (some packet.payload)
                 received_bitmap := frag_pkt.received_bitmap ||| 2 ^ packet.frag_id }
      else Option.none
    match step with
    | Option.none => Option.none
    | some fp2 =>
      let s2 := { s1 with pakets := alUpsert packet.pkt_id fp2 s1.pakets }
      if countOnes128 fp2.received_bitmap % 256 = fp2.fragment_count then
        some (some packet.pkt_id, s2)
      else
        some (Option.none, s2)
  | Option.none =>
    if packet.frag_id < packet.frag_total then
      let received := (List.replicate packet.frag_total
        (Option.none : Option (List Nat))).set packet.frag_id (some packet.payload)
      let fp : FragmentedPacket :=
        { fragment_count := packet.frag_total
          received_bitmap := 2 ^ packet.frag_id
          received := received }
      some (Option.none, { s1 with pakets := alUpsert packet.pkt_id fp s1.pakets })
    else Option.none

/-- UdpSession::take_fragmented_packet: removes the entry and
concatenates whatever fragments are present, in ascending frag_id order. -/
def UdpSession.take_fragmented_packet (s : UdpSessionState) (pkt_id : Nat) :
    Option (List Nat) × UdpSessionState :=
  match alLookup pkt_id s.pakets with
  | Option.none => (Option.none, s)
  | some frag_pkt =>
    let s2 := { s with pakets := alRemove pkt_id s.pakets }
    if frag_pkt.received.isEmpty then (Option.none, s2)
    else if frag_pkt.received.length = 1 then
      match frag_pkt.received.head? with
      | some (some bytes) => (some bytes, s2)
      | _ => (Option.none, s2)
    else
      (some ((frag_pkt.received.filterMap id).flatten), s2)

/-- RuntimeContext::get_session (src/processor/tuic/context.rs): returns
the session for an assoc_id, creating and inserting a fresh one when
missing, together with the map after the call. -/
def RuntimeContext.get_session (ctx : List (Nat × UdpSessionState)) (assoc : Nat) :
    UdpSessionState × List (Nat × UdpSessionState) :=
  match alLookup assoc ctx with
  | some session => (session, ctx)
  | Option.none => (UdpSession.new, alUpsert assoc UdpSession.new ctx)

/-- The externally visible effects of one PacketProcessor::process call:
upstream UDP sends (socket send_to target and bytes), datagrams sent back
to the client (their serialized bytes), and the Rust result, where
some b is Ok(b) and Option.none is an Err return. -/
structure ProcessOutput where
  upstream_sends : List (SockAddr × List Nat)
  client_datagrams : List (List Nat)
  result : Option Bool
deriving DecidableEq, Repr

/-- PacketProcessor::process (src/processor/tuic/command/packet.rs),
translated step for step.  The gate argument is the value returned by
context.wait_for_auth(): some true / some false for a signalled gate and
Option.none for a timeout; the source drops this value on the floor
(line 24) and continues unconditionally, which the unused binding below
mirrors.  Address::to_socket_address (DNS plus local-address rewrite) is
abstracted by the resolve oracle, and the reply side of
UdpSession::send_and_recv by upstream_reply (Option.none standing for a
receive timeout or socket error).  The outer Option.none is a panic
escaping from UdpSession::accept. -/
def PacketProcessor.process (gate : Option Bool) (ctx : List (Nat × UdpSessionState))
    (packet : Packet) (resolve : Address → Option SockAddr)
    (upstream_reply : Option (List Nat)) :
    Option (ProcessOutput × List (Nat × UdpSessionState)) :=
  let _auth := gate
  if packet.only_one_frag then
    let sc := RuntimeContext.get_session ctx packet.assoc_id
    match resolve packet.address with
    | Option.none =>
      some ({ upstream_sends := [], client_datagrams := [], result := Option.none }, sc.2)
    | some remote_addr =>
      let sends := [(remote_addr, packet.payload)]
      match upstream_reply with
      | Option.none =>
        some ({ upstream_sends := sends, client_datagrams := [], result := Option.none }, sc.2)
      | some response_buf =>
        let response_packets :=
          Packet.get_packets_from response_buf packet.assoc_id packet.pkt_id packet.address
        some ({ upstream_sends := sends
                client_datagrams := response_packets.map Packet.write_to_buf
                result := some true }, sc.2)
  else
    let sc := RuntimeContext.get_session ctx packet.assoc_id
    let assoc_id := packet.assoc_id
    match UdpSession.accept sc.1 packet with
    | Option.none => Option.none
    | some (completion, session2) =>
      let ctx2 := alUpsert assoc_id session2 sc.2
      match completion with
      | Option.none =>
        some ({ upstream_sends := [], client_datagrams := [], result := some true }, ctx2)
      | some completed_pkt_id =>
        let ts := UdpSession.take_fragmented_packet session2 completed_pkt_id
        let ctx3 := alUpsert assoc_id ts.2 ctx2
        match ts.1 with
        | Option.none =>
          some ({ upstream_sends := [], client_datagrams := [], result := some true }, ctx3)
        | some assembled_payload =>
          match ts.2.address with
          | Option.none =>
            some ({ upstream_sends := [], client_datagrams := [], result := some true }, ctx3)
          | some address =>
            match resolve address with
            | Option.none =>
              some ({ upstream_sends := [], client_datagrams := [],
                      result := Option.none }, ctx3)
            | some remote_addr =>
              let sends := [(remote_addr, assembled_payload)]
              match upstream_reply with
              | Option.none =>
                some ({ upstream_sends := sends, client_datagrams := [],
                        result := some true }, ctx3)
              | some response_buf =>
                let response_packets :=
                  Packet.get_packets_from response_buf assoc_id completed_pkt_id address
                some ({ upstream_sends := sends
                        client_datagrams := response_packets.map Packet.write_to_buf
                        result := some true }, ctx3)

/-- DissociateProcess::process (src/processor/tuic/command/dissociate.rs):
the wait_for_auth value is dropped exactly as in the source (line 27),
then the UdpSessionManager entry for (remote_address, assoc_id) is
removed; the call always returns Ok(true). -/
def DissociateProcess.process (gate : Option Bool) (manager_sessions : MgrSessions)
    (client : Client) (d : Dissociate) : Bool × MgrSessions :=
  let _auth := gate
  (true, UdpSessionManager.remove_session manager_sessions client d.asso_id)

/-- Combined per-connection state touched by the Packet and Dissociate
processors: the RuntimeContext session map (used by PacketProcessor) and
the UdpSessionManager reassembly map (used by DissociateProcess). -/
structure ConnState where
  udp_sessions : List (Nat × UdpSessionState)
  manager_sessions : MgrSessions
deriving DecidableEq, Repr

def ConnState.processPacket (st : ConnState) (gate : Option Bool) (packet : Packet)
    (resolve : Address → Option SockAddr) (upstream_reply : Option (List Nat)) :
    Option (ProcessOutput × ConnState) :=
  match PacketProcessor.process gate st.udp_sessions packet resolve upstream_reply with
  | Option.none => Option.none
  | some (out, ctx2) => some (out, { st with udp_sessions := ctx2 })

def ConnState.processDissociate (st : ConnState) (gate : Option Bool) (client : Client)
    (d : Dissociate) : Bool × ConnState :=
  let r := DissociateProcess.process gate st.manager_sessions client d
  (r.1, { st with manager_sessions := r.2 })

/-- Failed-attempts record of the TUIC authentication manager
(src/authenticate/tuic/mod.rs, struct FailedAttempts). -/
structure FailedAttempts where
  count : Nat
  first_failure : Nat
deriving DecidableEq, Repr

/-- FailedAttempts::new: a fresh record counts the current attempt. -/
def FailedAttempts.new (now : Nat) : FailedAttempts :=
  { count := 1, first_failure := now }

/-- FailedAttempts::increment: reset when the hour window has passed,
then count this attempt. -/
def FailedAttempts.increment (fa : FailedAttempts) (now : Nat) : FailedAttempts :=
  let fa1 := if 3600 < now - fa.first_failure then
    { count := 0, first_failure := now } else fa
  { fa1 with count := fa1.count + 1 }

/-- Outcomes of TuicAuthenticationManager::authenticate, named after the
error kinds of the specification. -/
inductive AuthResult where
  | ok
  | unknownUser
  | deriveFailed
  | rateLimited
  | badToken
deriving DecidableEq, Repr

/-- Result of one authenticate call: the Rust return value, the
failed-attempts map afterwards, and whether the TLS keying-material
exporter was invoked during the call. -/
structure AuthOutcome where
  result : AuthResult
  failed_attempts : List (Nat × FailedAttempts)
  exporter_called : Bool
deriving DecidableEq, Repr

def MAX_FAILED_ATTEMPTS : Nat := 5

/-- TuicAuthenticationManager::authenticate (src/authenticate/tuic/mod.rs),
translated step for step and in source order: user lookup, then the
keying-material exporter (whose outcome is the exporter oracle argument:
some buf is a derived token, Option.none an exporter failure), then the
rate-limit check, then the constant-time token comparison.  The uuid is
abstracted to a Nat key; now is the Instant clock. -/
def TuicAuthenticationManager.authenticate (users : List (Nat × List Nat))
    (failed_attempts : List (Nat × FailedAttempts)) (uuid : Nat) (token : List Nat)
    (exporter : Option (List Nat)) (now : Nat) : AuthOutcome :=
  match alLookup uuid users with
  | Option.none =>
    { result := AuthResult.unknownUser, failed_attempts := failed_attempts
      exporter_called := false }
  | some _password =>
    match exporter with
    | Option.none =>
      { result := AuthResult.deriveFailed, failed_attempts := failed_attempts
        exporter_called := true }
    | some buf =>
      let rate :=
        match alLookup uuid failed_attempts with
        | some attempts =>
          if MAX_FAILED_ATTEMPTS ≤ attempts.count then
            if now - attempts.first_failure ≤ 3600 then Sum.inl ()
            else Sum.inr (alUpsert uuid
              ({ count := 0, first_failure := now } : FailedAttempts) failed_attempts)
          else Sum.inr failed_attempts
        | Option.none => Sum.inr failed_attempts
      match rate with
      | Sum.inl _ =>
        { result := AuthResult.rateLimited, failed_attempts := failed_attempts
          exporter_called := true }
      | Sum.inr failed2 =>
        if token == buf then
          { result := AuthResult.ok, failed_attempts := alRemove uuid failed2
            exporter_called := true }
        else
          match alLookup uuid failed2 with
          | some attempts =>
            { result := AuthResult.badToken
              failed_attempts := alUpsert uuid (attempts.increment now) failed2
              exporter_called := true }
          | Option.none =>
            { result := AuthResult.badToken
              failed_attempts := alUpsert uuid (FailedAttempts.new now) failed2
              exporter_called := true }

/-- Trojan command tags (src/protocol/trojan/command/mod.rs). -/
inductive TrojanCommandType where
  | connect
  | udpAssociate
deriving DecidableEq, Repr

/-- CommandType::from_u8 for Trojan: 0x01 Connect, 0x03 UdpAssociate,
anything else bails with an error. -/
def TrojanCommandType.from_u8 (value : Nat) : Option TrojanCommandType :=
  if value = 0x01 then some TrojanCommandType.connect
  else if value = 0x03 then some TrojanCommandType.udpAssociate
  else Option.none

/-- Host of a Trojan address; the source renders hosts to a String, kept
here as the parsed bytes of each variant. -/
inductive TrojanHost where
  | ip4 (bytes : List Nat)
  | name (bytes : List Nat)
  | ip6 (bytes : List Nat)
deriving DecidableEq, Repr

structure TrojanAddress where
  host : TrojanHost
  port : Nat
deriving DecidableEq, Repr

/-- Address::read_from of the Trojan codec
(src/protocol/trojan/address.rs): tag byte 0x01 IPv4 / 0x03 Domain /
0x04 IPv6, then the host bytes, then the port; every failure in here is
an error for the caller, never a silent no-request. -/
def TrojanAddress.read_from (l : List Nat) : Option (TrojanAddress × List Nat) :=
  match readU8 l with
  | Option.none => Option.none
  | some (tagByte, r0) =>
    if tagByte = 0x01 then
      match readExact 4 r0 with
      | Option.none => Option.none
      | some (buf, r1) =>
        match readBE 2 r1 with
        | Option.none => Option.none
        | some (port, r2) => some ({ host := TrojanHost.ip4 buf, port := port }, r2)
    else if tagByte = 0x03 then
      match readU8 r0 with
      | Option.none => Option.none
      | some (len, r1) =>
        match readExact len r1 with
        | Option.none => Option.none
        | some (buf, r2) =>
          if validUtf8 buf then
            match readBE 2 r2 with
            | Option.none => Option.none
            | some (port, r3) => some ({ host := TrojanHost.name buf, port := port }, r3)
          else Option.none
    else if tagByte = 0x04 then
      match readExact 16 r0 with
      | Option.none => Option.none
      | some (buf, r1) =>
        match readBE 2 r1 with
        | Option.none => Option.none
        | some (port, r2) => some ({ host := TrojanHost.ip6 buf, port := port }, r2)
    else Option.none

/-- constant_time_eq (src/authenticate/trojan/mod.rs): length check, then
a fold of xor-or over the zipped bytes. -/
def constant_time_eq (a b : List Nat) : Bool :=
  if a.length ≠ b.length then false
  else ((a.zip b).foldl (fun result p => result ||| (p.1 ^^^ p.2)) 0) == 0

/-- TrojanAuthenticationManager::verify_password_hash: any configured
hash matches under constant_time_eq.  Hashes are kept as byte lists. -/
def TrojanAuthenticationManager.verify_password_hash (valid_hashes : List (List Nat))
    (received : List Nat) : Bool :=
  valid_hashes.any (fun h => constant_time_eq h received)

structure TrojanRequest where
  command : TrojanCommandType
  address : TrojanAddress
deriving DecidableEq, Repr

/-- TrojanRequest::read_from (src/protocol/trojan/command/mod.rs),
translated step for step.  Except.ok Option.none is the no-request
return; Except.error is a Rust Err.  Short reads on the hash, the CRLFs
and the command byte map UnexpectedEof to Ok(None); the UTF-8 check of
the hash, an unknown command byte and every address failure propagate as
errors. -/
def TrojanRequest.read_from (valid_hashes : List (List Nat)) (input : List Nat) :
    Except Unit (Option TrojanRequest) :=
  match readExact 56 input with
  | Option.none => Except.ok Option.none
  | some (hash_buf, r1) =>
    if ¬ validUtf8 hash_buf then Except.error ()
    else
      match readExact 2 r1 with
      | Option.none => Except.ok Option.none
      | some (crlf, r2) =>
        if crlf ≠ [13, 10] then Except.ok Option.none
        else if ¬ TrojanAuthenticationManager.verify_password_hash valid_hashes hash_buf then
          Except.ok Option.none
        else
          match readU8 r2 with
          | Option.none => Except.ok Option.none
          | some (cmd_byte, r3) =>
            match TrojanCommandType.from_u8 cmd_byte with
            | Option.none => Except.error ()
            | some command =>
              match TrojanAddress.read_from r3 with
              | Option.none => Except.error ()
              | some (address, r4) =>
                match readExact 2 r4 with
                | Option.none => Except.ok Option.none
                | some (end_crlf, r5) =>
                  if end_crlf ≠ [13, 10] then Except.ok Option.none
                  else Except.ok (some { command := command, address := address })

/-- Well-formedness of an Address value: the cache bytes are the
canonical serialization of the parsed value, as every Address built by
Address::read_from (or Address::None) satisfies, and the numeric parts
fit their machine types. -/
def AddressWF : Address → Bool
  | Address.socketAddress (SockAddr.v4 ip port) cache =>
    decide (ip < 4294967296) && decide (port < 65536) &&
      (cache == 0x01 :: (writeBE 4 ip ++ writeBE 2 port))
  | Address.socketAddress (SockAddr.v6 ip port) cache =>
    decide (ip < 340282366920938463463374607431768211456) && decide (port < 65536) &&
      (cache == 0x02 :: (writeBE 16 ip ++ writeBE 2 port))
  | Address.domainAddress name port cache =>
    decide (name.length < 256) && decide (port < 65536) && validUtf8 name &&
      (cache == 0x00 :: name.length :: (name ++ writeBE 2 port))
  | Address.none => true

/-- Well-formedness of a Packet value: the header is the Packet header
(as both Packet constructors in the source produce), the numeric fields
fit their machine types u16 / u8, the size field equals the payload
length, and the address is well formed. -/
def PacketWF (c : Packet) : Bool :=
  (c.header == Header.new CommandType.packet) && decide (c.assoc_id < 65536) &&
    decide (c.pkt_id < 65536) && decide (c.frag_total < 256) && decide (c.frag_id < 256) &&
    (c.size == c.payload.length) && decide (c.payload.length < 65536) &&
    AddressWF c.address

/-- A resolver oracle for the concrete runs below: every address resolves
to 127.0.0.1:9 (as Nat, 2130706433:9). -/
def fixedResolve : Address → Option SockAddr :=
  fun _ => some (SockAddr.v4 2130706433 9)

/-- Concrete single-fragment Packet used for the unauthenticated-gate run:
frag_total 1, destination 127.0.0.1:9, payload abc. -/
def c1_packet : Packet :=
  { header := Header.new CommandType.packet
    assoc_id := 1
    pkt_id := 1
    frag_total := 1
    frag_id := 0
    size := 3
    address := Address.socketAddress (SockAddr.v4 2130706433 9)
      (0x01 :: (writeBE 4 2130706433 ++ writeBE 2 9))
    payload := [97, 98, 99] }

/-- Concrete multi-fragment Packet with frag_id 7 beyond its frag_total 3,
as an attacker may send on the datagram or unidirectional stream. -/
def c4_packet : Packet :=
  { header := Header.new CommandType.packet
    assoc_id := 1
    pkt_id := 1
    frag_total := 3
    frag_id := 7
    size := 1
    address := Address.none
    payload := [42] }

/-- The buffer ReassemblyBuffer::new(3) builds at time 0. -/
def c4_buffer : ReassemblyBuffer :=
  { frag_total := 3
    fragments := List.replicate 3 Option.none
    received_bitmap := 0
    received_count := 0
    total_bytes := 0
    last_update := 0 }

/-- Destination address of the fragmented packet in the Dissociate run. -/
def c6_addr : Address :=
  Address.socketAddress (SockAddr.v4 2130706433 9999)
    (0x01 :: (writeBE 4 2130706433 ++ writeBE 2 9999))

/-- Fragment i of a 3-fragment packet on assoc_id 9, pkt_id 4; only
fragment 0 carries the destination address. -/
def c6_frag (i : Nat) : Packet :=
  { header := Header.new CommandType.packet
    assoc_id := 9
    pkt_id := 4
    frag_total := 3
    frag_id := i
    size := 2
    address := if i = 0 then c6_addr else Address.none
    payload := [2 * i, 2 * i + 1] }

def c6_dissociate : Dissociate :=
  { header := Header.new CommandType.dissociate, asso_id := 9 }

/-- The Dissociate scenario of the specification, run against the code:
fragment 0 arrives, the client sends Dissociate for the same assoc_id,
then fragments 1 and 2 arrive.  The chain returns the outcome of the
final Packet command. -/
def c6_run : Option (ProcessOutput × ConnState) :=
  match ConnState.processPacket { udp_sessions := [], manager_sessions := [] }
      (some true) (c6_frag 0) fixedResolve (some [99]) with
  | Option.none => Option.none
  | some (_, st1) =>
    let st2 := (ConnState.processDissociate st1 (some true) 77 c6_dissociate).2
    match ConnState.processPacket st2 (some true) (c6_frag 1) fixedResolve (some [99]) with
    | Option.none => Option.none
    | some (_, st3) =>
      ConnState.processPacket st3 (some true) (c6_frag 2) fixedResolve (some [99])

/-- Reading back k big-endian bytes of v recovers v modulo 2 ^ (8 k). -/
theorem readBE_writeBE (k : Nat) (v : Nat) (rest : List Nat) :
    readBE k (writeBE k v ++ rest) = some (v % 256 ^ k, rest) := by
  induction k generalizing v with
  | zero => simp [readBE, writeBE, Nat.mod_one]
  | succ k ih =>
    simp only [writeBE, List.cons_append, readBE, List.append_eq, ih]
    have h2 : v % (256 ^ k * 256) = v % 256 ^ k + 256 ^ k * (v / 256 ^ k % 256) := Nat.mod_mul
    have h3 : (256 : Nat) ^ (k + 1) = 256 ^ k * 256 := by ring
    rw [h3, h2, Nat.mul_comm (v / 256 ^ k % 256) (256 ^ k), Nat.add_comm]

/-- Reading back k big-endian bytes of a value below 2 ^ (8 k) is exact. -/
theorem readBE_writeBE_lt {k v : Nat} (h : v < 256 ^ k) (rest : List Nat) :
    readBE k (writeBE k v ++ rest) = some (v, rest) := by
  rw [readBE_writeBE, Nat.mod_eq_of_lt h]

/-- read_exact of the exact length of a byte block returns the block. -/
theorem readExact_append (l rest : List Nat) :
    readExact l.length (l ++ rest) = some (l, rest) := by
  simp [readExact, List.take_left, List.drop_left, List.length_append, Nat.le_add_right]

/-- Concatenating the chunks of a payload gives back the payload. -/
theorem chunksMax_flatten_aux :
    ∀ (n : Nat) (l : List Nat), l.length ≤ n → (chunksMax l).flatten = l := by
  intro n
  induction n with
  | zero =>
    intro l h
    have : l = [] := List.eq_nil_of_length_eq_zero (by omega)
    subst this
    simp [chunksMax]
  | succ n ih =>
    intro l h
    cases l with
    | nil => simp [chunksMax]
    | cons b r =>
      simp only [chunksMax, List.flatten_cons]
      rw [ih ((b :: r).drop MAX_PAYLOAD_PER_PACKET) (by
        simp only [List.length_drop, List.length_cons, MAX_PAYLOAD_PER_PACKET]
        simp only [List.length_cons] at h
        omega)]
      exact List.take_append_drop _ _

/-- Every chunk holds at most MAX_PAYLOAD_PER_PACKET bytes. -/
theorem chunksMax_mem_length_aux :
    ∀ (n : Nat) (l : List Nat), l.length ≤ n →
      ∀ c ∈ chunksMax l, c.length ≤ MAX_PAYLOAD_PER_PACKET := by
  intro n
  induction n with
  | zero =>
    intro l h c hc
    have : l = [] := List.eq_nil_of_length_eq_zero (by omega)
    subst this
    simp [chunksMax] at hc
  | succ n ih =>
    intro l h c hc
    cases l with
    | nil => simp [chunksMax] at hc
    | cons b r =>
      simp only [chunksMax, List.mem_cons] at hc
      rcases hc with hc | hc
      · subst hc
        simp [List.length_take]
      · exact ih ((b :: r).drop MAX_PAYLOAD_PER_PACKET) (by
          simp only [List.length_drop, List.length_cons, MAX_PAYLOAD_PER_PACKET]
          simp only [List.length_cons] at h
          omega) c hc

/-- The number of chunks is the ceiling of the length over the mtu. -/
theorem chunksMax_length_aux :
    ∀ (n : Nat) (l : List Nat), l.length ≤ n →
      (chunksMax l).length = divCeil l.length MAX_PAYLOAD_PER_PACKET := by
  intro n
  induction n with
  | zero =>
    intro l h
    have : l = [] := List.eq_nil_of_length_eq_zero (by omega)
    subst this
    simp [chunksMax, divCeil, MAX_PAYLOAD_PER_PACKET]
  | succ n ih =>
    intro l h
    cases l with
    | nil => simp [chunksMax, divCeil, MAX_PAYLOAD_PER_PACKET]
    | cons b r =>
      simp only [chunksMax, List.length_cons]
      rw [ih ((b :: r).drop MAX_PAYLOAD_PER_PACKET) (by
        simp only [List.length_drop, List.length_cons, MAX_PAYLOAD_PER_PACKET]
        simp only [List.length_cons] at h
        omega)]
      simp only [List.length_drop, List.length_cons, divCeil, MAX_PAYLOAD_PER_PACKET]
      by_cases hle : r.length + 1 ≤ 1200
      · have h0 : r.length + 1 - 1200 = 0 := by omega
        rw [h0]
        have h1 : (0 + 1200 - 1) / 1200 = 0 := by norm_num
        rw [h1]
        have h2 : (r.length + 1 + 1200 - 1) / 1200 = 1 := by
          apply Nat.div_eq_of_lt_le
          · omega
          · omega
        omega
      · have h3 : r.length + 1 + 1200 - 1 = (r.length + 1 - 1200 + 1200 - 1) + 1200 := by
          omega
        rw [h3, Nat.add_div_right _ (by norm_num)]

/-- Reading back the serialized bytes of a well-formed address yields the
address and leaves the rest of the stream untouched. -/
theorem addressWF_read_write (a : Address) (h : AddressWF a = true) (rest : List Nat) :
    Address.read_from (a.write_to_buf ++ rest) = some (a, rest) := by
  cases a with
  | none =>
    simp [Address.write_to_buf, Address.read_from, readU8, AddressType.tryFrom]
  | socketAddress sa cache =>
    cases sa with
    | v4 ip port =>
      simp only [AddressWF, Bool.and_eq_true, decide_eq_true_eq, beq_iff_eq] at h
      obtain ⟨⟨hip, hport⟩, hcache⟩ := h
      subst hcache
      have hip2 : ip < 256 ^ 4 := by norm_num; omega
      have hport2 : port < 256 ^ 2 := by norm_num; omega
      simp [Address.write_to_buf, Address.read_from, readU8, AddressType.tryFrom,
        AddressType.toByte, List.append_assoc, readBE_writeBE_lt hip2,
        readBE_writeBE_lt hport2]
    | v6 ip port =>
      simp only [AddressWF, Bool.and_eq_true, decide_eq_true_eq, beq_iff_eq] at h
      obtain ⟨⟨hip, hport⟩, hcache⟩ := h
      subst hcache
      have hip2 : ip < 256 ^ 16 := by norm_num; omega
      have hport2 : port < 256 ^ 2 := by norm_num; omega
      simp [Address.write_to_buf, Address.read_from, readU8, AddressType.tryFrom,
        AddressType.toByte, List.append_assoc, readBE_writeBE_lt hip2,
        readBE_writeBE_lt hport2]
  | domainAddress name port cache =>
    simp only [AddressWF, Bool.and_eq_true, decide_eq_true_eq, beq_iff_eq] at h
    obtain ⟨⟨⟨hlen, hport⟩, hutf⟩, hcache⟩ := h
    subst hcache
    have hport2 : port < 256 ^ 2 := by norm_num; omega
    simp [Address.write_to_buf, Address.read_from, readU8, AddressType.tryFrom,
      AddressType.toByte, List.append_assoc, readExact_append, hutf,
      readBE_writeBE_lt hport2]

/-- C9 counterexample: a Domain address with name length 0 is accepted by
Address::read_from as an empty domain, not rejected as a malformed frame
(input bytes: tag 0x00, length 0x00, port 443). -/
theorem c9_domain_len_zero_parses :
    Address.read_from [0x00, 0x00, 0x01, 0xBB] =
      some (Address.domainAddress [] 443 [0x00, 0x00, 0x01, 0xBB], []) := by
  rfl

/-- C9 (amended): parsing a Domain address succeeds for a name length of
255 (with 255 valid UTF-8 name bytes and a port present), and a name
length of 0 is also accepted, yielding an empty domain name. -/
theorem c9_domain_length_boundaries :
    (∀ (name : List Nat) (port : Nat) (rest : List Nat),
      name.length = 255 → validUtf8 name = true → port < 65536 →
      Address.read_from (0x00 :: 0xFF :: (name ++ writeBE 2 port ++ rest)) =
        some (Address.domainAddress name port
          (0x00 :: 0xFF :: (name ++ writeBE 2 port)), rest)) ∧
    (∀ (port : Nat) (rest : List Nat), port < 65536 →
      Address.read_from (0x00 :: 0x00 :: (writeBE 2 port ++ rest)) =
        some (Address.domainAddress [] port (0x00 :: 0x00 :: writeBE 2 port), rest)) := by
  constructor
  · intro name port rest hlen hutf hport
    have hport2 : port < 256 ^ 2 := by norm_num; omega
    rw [show (0xFF : Nat) = name.length from hlen.symm]
    simp [Address.read_from, readU8, AddressType.tryFrom, AddressType.toByte,
      readExact_append, hutf, readBE_writeBE_lt hport2]
  · intro port rest hport
    have hport2 : port < 256 ^ 2 := by norm_num; omega
    have hutf : validUtf8 [] = true := rfl
    simp [Address.read_from, readU8, AddressType.tryFrom, AddressType.toByte,
      readExact, hutf, readBE_writeBE_lt hport2]

set_option maxRecDepth 20000 in
/-- C9 witness: the amended statement applied at a concrete 255-byte name
and at the empty name, port 443. -/
theorem c9_domain_length_boundaries_witness :
    ((List.replicate 255 97).length = 255 ∧
      validUtf8 (List.replicate 255 97) = true ∧ (443 : Nat) < 65536 ∧
      Address.read_from
          (0x00 :: 0xFF :: (List.replicate 255 97 ++ writeBE 2 443 ++ [7])) =
        some (Address.domainAddress (List.replicate 255 97) 443
          (0x00 :: 0xFF :: (List.replicate 255 97 ++ writeBE 2 443)), [7])) ∧
    Address.read_from (0x00 :: 0x00 :: (writeBE 2 443 ++ [7])) =
      some (Address.domainAddress [] 443 (0x00 :: 0x00 :: writeBE 2 443), [7]) := by
  refine ⟨⟨by decide, by decide, by decide, ?_⟩, ?_⟩
  · exact c9_domain_length_boundaries.1 (List.replicate 255 97) 443 [7]
      (by decide) (by decide) (by decide)
  · exact c9_domain_length_boundaries.2 443 [7] (by decide)

/-- C7: for every well-formed Packet command (size field equal to the
payload length, field values within their machine types, canonical
address cache as all addresses built by the program have), serializing
with write_to_buf and parsing the bytes back with read_from yields the
same packet, consuming exactly the written bytes. -/
theorem c7_packet_roundtrip (c : Packet) (rest : List Nat) (h : PacketWF c = true) :
    Command.read_from (c.write_to_buf ++ rest) = some (Command.packet c, rest) := by
  obtain ⟨hd, assoc_id, pkt_id, frag_total, frag_id, size, address, payload⟩ := c
  simp only [PacketWF, Bool.and_eq_true, decide_eq_true_eq, beq_iff_eq] at h
  obtain ⟨⟨⟨⟨⟨⟨⟨hheader, hassoc⟩, hpkt⟩, hft⟩, hfi⟩, hsize⟩, hplen⟩, haddr⟩ := h
  subst hheader
  have hassoc2 : assoc_id < 256 ^ 2 := by norm_num; omega
  have hpkt2 : pkt_id < 256 ^ 2 := by norm_num; omega
  have hsize2 : size < 256 ^ 2 := by norm_num; omega
  simp only [Packet.write_to_buf, Header.new, Header.write_to, Version.toByte,
    CommandType.toByte, List.append_assoc, List.cons_append, List.nil_append]
  simp only [Command.read_from, Header.read_from, readU8, Version.tryFrom,
    CommandType.tryFrom]
  norm_num
  simp only [Packet.read_from, readBE_writeBE_lt hassoc2, readBE_writeBE_lt hpkt2,
    Nat.mod_eq_of_lt hft, Nat.mod_eq_of_lt hfi, readU8,
    readBE_writeBE_lt hsize2, addressWF_read_write address haddr]
  rw [hsize, readExact_append]

set_option maxRecDepth 20000 in
/-- C7 witness: the round trip applied to a concrete packet carrying a
domain address and a two-byte payload. -/
theorem c7_packet_roundtrip_witness :
    PacketWF
        { header := Header.new CommandType.packet, assoc_id := 258, pkt_id := 3,
          frag_total := 1, frag_id := 0, size := 2,
          address := Address.domainAddress [97] 80 [0x00, 1, 97, 0, 80],
          payload := [7, 8] } = true ∧
    Command.read_from
        (Packet.write_to_buf
          { header := Header.new CommandType.packet, assoc_id := 258, pkt_id := 3,
            frag_total := 1, frag_id := 0, size := 2,
            address := Address.domainAddress [97] 80 [0x00, 1, 97, 0, 80],
            payload := [7, 8] } ++ [9]) =
      some (Command.packet
        { header := Header.new CommandType.packet, assoc_id := 258, pkt_id := 3,
          frag_total := 1, frag_id := 0, size := 2,
          address := Address.domainAddress [97] 80 [0x00, 1, 97, 0, 80],
          payload := [7, 8] }, [9]) := by
  refine ⟨by decide, ?_⟩
  exact c7_packet_roundtrip _ [9] (by decide)

/-- The number of fragments produced is always the ceiling of the payload
length over the 1200-byte mtu; the source imposes no cap on it. -/
theorem get_packets_from_length (p : List Nat) (a i : Nat) (ad : Address) :
    (Packet.get_packets_from p a i ad).length = divCeil p.length MAX_PAYLOAD_PER_PACKET := by
  simp [Packet.get_packets_from, List.length_map, List.enum_length,
    chunksMax_length_aux p.length p le_rfl]

/-- C3 counterexample: a payload of 154800 bytes (129 times 1200) makes
get_packets_from produce 129 fragments, refuting the claimed cap of 128. -/
theorem c3_fragment_count_exceeds_128 :
    (Packet.get_packets_from (List.replicate 154800 0) 0 0 Address.none).length = 129 ∧
    ¬ (Packet.get_packets_from (List.replicate 154800 0) 0 0 Address.none).length ≤ 128 := by
  have h := get_packets_from_length (List.replicate 154800 0) 0 0 Address.none
  rw [List.length_replicate] at h
  have h2 : divCeil 154800 MAX_PAYLOAD_PER_PACKET = 129 := by
    norm_num [divCeil, MAX_PAYLOAD_PER_PACKET]
  constructor <;> omega

/-- C3 (amended): for payloads of at most 128 * 1200 bytes, fragmentation
produces exactly ceil(len / 1200) fragments (at most 128), their payloads
concatenated in ascending frag_id order give back the payload, every
fragment carries at most 1200 payload bytes, the common frag_total, a
size field equal to its payload length, and only the fragment with
frag_id 0 carries the real address.  Beyond 128 * 1200 bytes the source
keeps producing one fragment per 1200-byte chunk with no cap. -/
theorem c3_fragmentation_correct (p : List Nat) (a i : Nat) (ad : Address)
    (hlen : p.length ≤ 128 * MAX_PAYLOAD_PER_PACKET) :
    (Packet.get_packets_from p a i ad).length = divCeil p.length MAX_PAYLOAD_PER_PACKET ∧
    divCeil p.length MAX_PAYLOAD_PER_PACKET ≤ 128 ∧
    ((Packet.get_packets_from p a i ad).map Packet.payload).flatten = p ∧
    ∀ (k : Nat) (hk : k < (Packet.get_packets_from p a i ad).length),
      (Packet.get_packets_from p a i ad)[k].frag_id = k ∧
      (Packet.get_packets_from p a i ad)[k].frag_total =
        divCeil p.length MAX_PAYLOAD_PER_PACKET ∧
      (Packet.get_packets_from p a i ad)[k].payload.length ≤ MAX_PAYLOAD_PER_PACKET ∧
      (Packet.get_packets_from p a i ad)[k].size =
        (Packet.get_packets_from p a i ad)[k].payload.length ∧
      (Packet.get_packets_from p a i ad)[k].address =
        (if k = 0 then ad else Address.none) := by
  have hdc : divCeil p.length MAX_PAYLOAD_PER_PACKET ≤ 128 := by
    have h1 : p.length + 1200 - 1 < 129 * 1200 := by
      simp only [MAX_PAYLOAD_PER_PACKET] at hlen
      omega
    have h2 : (p.length + 1200 - 1) / 1200 < 129 :=
      (Nat.div_lt_iff_lt_mul (by norm_num)).mpr h1
    simp only [divCeil, MAX_PAYLOAD_PER_PACKET]
    omega
  have hchunks : (chunksMax p).length = divCeil p.length MAX_PAYLOAD_PER_PACKET :=
    chunksMax_length_aux p.length p le_rfl
  refine ⟨get_packets_from_length p a i ad, hdc, ?_, ?_⟩
  · have hmap : List.map Packet.payload (Packet.get_packets_from p a i ad) =
        List.map Prod.snd (chunksMax p).enum := by
      simp only [Packet.get_packets_from, List.map_map]
      apply List.map_congr_left
      intro fc _
      rfl
    rw [hmap, List.enum_map_snd]
    exact chunksMax_flatten_aux p.length p le_rfl
  · intro k hk
    have hlen_eq := get_packets_from_length p a i ad
    have hk3 : k < (chunksMax p).length := by omega
    have hclen : (chunksMax p)[k].length ≤ MAX_PAYLOAD_PER_PACKET :=
      chunksMax_mem_length_aux p.length p le_rfl _ (List.getElem_mem hk3)
    refine ⟨?_, ?_, ?_, ?_, ?_⟩
    · simp only [Packet.get_packets_from, List.getElem_map, List.getElem_enum]
      exact Nat.mod_eq_of_lt (by omega)
    · simp only [Packet.get_packets_from, List.getElem_map, List.getElem_enum]
      exact Nat.mod_eq_of_lt (by omega)
    · simp only [Packet.get_packets_from, List.getElem_map, List.getElem_enum]
      exact hclen
    · simp only [Packet.get_packets_from, List.getElem_map, List.getElem_enum]
      have : (chunksMax p)[k].length < 65536 := by
        simp only [MAX_PAYLOAD_PER_PACKET] at hclen
        omega
      exact Nat.mod_eq_of_lt this
    · simp only [Packet.get_packets_from, List.getElem_map, List.getElem_enum]
      rcases Nat.eq_zero_or_pos k with hz | hp
      · subst hz
        simp
      · simp [hp, Nat.pos_iff_ne_zero.mp hp]

/-- C3 witness: the amended statement applied to the payload 1, 2, 3. -/
theorem c3_fragmentation_correct_witness :
    ([1, 2, 3] : List Nat).length ≤ 128 * MAX_PAYLOAD_PER_PACKET ∧
    (Packet.get_packets_from [1, 2, 3] 5 6 Address.none).length =
      divCeil ([1, 2, 3] : List Nat).length MAX_PAYLOAD_PER_PACKET ∧
    ((Packet.get_packets_from [1, 2, 3] 5 6 Address.none).map Packet.payload).flatten =
      [1, 2, 3] := by
  refine ⟨by decide, ?_, ?_⟩
  · exact (c3_fragmentation_correct [1, 2, 3] 5 6 Address.none (by decide)).1
  · exact (c3_fragmentation_correct [1, 2, 3] 5 6 Address.none (by decide)).2.2.1

/-- read_exact of two bytes from a stream with at least two bytes. -/
theorem readExact_cons_two (x y : Nat) (r : List Nat) :
    readExact 2 (x :: y :: r) = some ([x, y], r) := by
  have h2 : 2 ≤ (x :: y :: r).length := by simp
  simp [readExact, h2, List.take_succ_cons, List.drop_succ_cons]

/-- C10: fragmenting the empty payload yields frag_total 0 and no packets
at all, and consequently a single-fragment exchange whose upstream reply
is empty sends no datagram back to the client. -/
theorem c10_empty_payload_no_packets :
    (∀ (a i : Nat) (ad : Address), Packet.get_packets_from [] a i ad = []) ∧
    (∀ (gate : Option Bool) (ctx : List (Nat × UdpSessionState)) (pkt : Packet)
        (resolve : Address → Option SockAddr) (out : ProcessOutput)
        (ctx2 : List (Nat × UdpSessionState)),
      pkt.frag_total = 1 →
      PacketProcessor.process gate ctx pkt resolve (some []) = some (out, ctx2) →
      out.client_datagrams = []) := by
  have hempty : ∀ (a i : Nat) (ad : Address), Packet.get_packets_from [] a i ad = [] := by
    intro a i ad
    simp [Packet.get_packets_from, chunksMax]
  refine ⟨hempty, ?_⟩
  intro gate ctx pkt resolve out ctx2 hft hrun
  have hone : pkt.only_one_frag = true := by
    simp [Packet.only_one_frag, hft]
  simp only [PacketProcessor.process, hone, if_true] at hrun
  cases hres : resolve pkt.address with
  | none =>
    rw [hres] at hrun
    simp only [Option.some.injEq, Prod.mk.injEq] at hrun
    obtain ⟨h1, _⟩ := hrun
    rw [← h1]
  | some target =>
    rw [hres] at hrun
    simp only [hempty, List.map_nil, Option.some.injEq, Prod.mk.injEq] at hrun
    obtain ⟨h1, _⟩ := hrun
    rw [← h1]

/-- C10 witness: a concrete single-fragment packet processed with an
empty upstream reply produces no client datagram. -/
theorem c10_empty_payload_no_packets_witness :
    Packet.get_packets_from [] 0 0 Address.none = [] ∧
    ({ header := Header.new CommandType.packet, assoc_id := 5, pkt_id := 6,
       frag_total := 1, frag_id := 0, size := 0, address := Address.none,
       payload := [] } : Packet).frag_total = 1 ∧
    PacketProcessor.process Option.none []
        { header := Header.new CommandType.packet, assoc_id := 5, pkt_id := 6,
          frag_total := 1, frag_id := 0, size := 0, address := Address.none,
          payload := [] } fixedResolve (some []) =
      some ({ upstream_sends := [(SockAddr.v4 2130706433 9, [])],
              client_datagrams := [], result := some true },
            [(5, UdpSession.new)]) ∧
    ({ upstream_sends := [(SockAddr.v4 2130706433 9, [])],
       client_datagrams := [], result := some true } : ProcessOutput).client_datagrams =
      [] := by
  have hrun : PacketProcessor.process Option.none []
      { header := Header.new CommandType.packet, assoc_id := 5, pkt_id := 6,
        frag_total := 1, frag_id := 0, size := 0, address := Address.none,
        payload := [] } fixedResolve (some []) =
      some ({ upstream_sends := [(SockAddr.v4 2130706433 9, [])],
              client_datagrams := [], result := some true },
            [(5, UdpSession.new)]) := by
    simp [PacketProcessor.process, Packet.only_one_frag, fixedResolve,
      RuntimeContext.get_session, alLookup, alUpsert, Packet.get_packets_from, chunksMax]
  refine ⟨by simp [Packet.get_packets_from, chunksMax], rfl, hrun, ?_⟩
  exact c10_empty_payload_no_packets.2 Option.none [] _ fixedResolve _ _ rfl hrun

/-- C8: inserting a fragment whose frag_id bit is already set in the
received bitmap leaves the ReassemblyBuffer completely unchanged and
reports an incomplete, error-free insert; for an in-range frag_id the
call returns exactly Ok(None) with the untouched buffer. -/
theorem c8_duplicate_insert_idempotent (b : ReassemblyBuffer) (frag_id : Nat)
    (payload : List Nat) (max_total_bytes : Option Nat) (now : Nat)
    (hdup : b.received_bitmap.testBit frag_id = true) :
    (ReassemblyBuffer.insert b frag_id payload max_total_bytes now).2 = b ∧
    (frag_id < b.fragments.length →
      ReassemblyBuffer.insert b frag_id payload max_total_bytes now =
        (Except.ok Option.none, b)) := by
  constructor
  · by_cases h1 : b.fragments.length ≤ frag_id
    · simp [ReassemblyBuffer.insert, h1]
    · simp [ReassemblyBuffer.insert, h1, hdup]
  · intro h2
    have h1 : ¬ b.fragments.length ≤ frag_id := by omega
    simp [ReassemblyBuffer.insert, h1, hdup]

/-- C8 witness: a duplicate of fragment 0 in a half-filled two-fragment
buffer is ignored and the buffer is untouched. -/
theorem c8_duplicate_insert_idempotent_witness :
    Nat.testBit 1 0 = true ∧ (0 : Nat) < 2 ∧
    ReassemblyBuffer.insert
        { frag_total := 2, fragments := [some [5], Option.none],
          received_bitmap := 1, received_count := 1, total_bytes := 1,
          last_update := 0 } 0 [9, 9] Option.none 44 =
      (Except.ok Option.none,
        { frag_total := 2, fragments := [some [5], Option.none],
          received_bitmap := 1, received_count := 1, total_bytes := 1,
          last_update := 0 }) := by
  refine ⟨by decide, by decide, ?_⟩
  exact (c8_duplicate_insert_idempotent
    { frag_total := 2, fragments := [some [5], Option.none],
      received_bitmap := 1, received_count := 1, total_bytes := 1, last_update := 0 }
    0 [9, 9] Option.none 44 (by decide)).2 (by decide)

set_option maxRecDepth 40000 in
/-- C5 counterexample: with a valid, accepted 56-byte hash and CRLF, an
unknown command byte 0x02 makes TrojanRequest::read_from return an error
(the from_u8 bail propagates), not the no-request Ok(None). -/
theorem c5_unknown_command_returns_error :
    TrojanRequest.read_from [List.replicate 56 97]
        (List.replicate 56 97 ++ [13, 10, 2]) = Except.error () := by
  rfl

/-- C5 (amended): for a request whose 56 hash bytes are valid UTF-8, an
unknown password hash, a wrong CRLF after the hash, and a missing CRLF
(fewer than two bytes remaining) all make the reader return no request
(a successful None); but an unknown command byte after an accepted hash
and CRLF is returned as an error, which the caller propagates instead of
treating as a silent no-request. -/
theorem c5_mismatch_behavior :
    (∀ (valid_hashes : List (List Nat)) (hash : List Nat) (rest : List Nat),
      hash.length = 56 → validUtf8 hash = true →
      TrojanAuthenticationManager.verify_password_hash valid_hashes hash = false →
      TrojanRequest.read_from valid_hashes (hash ++ [13, 10] ++ rest) =
        Except.ok Option.none) ∧
    (∀ (valid_hashes : List (List Nat)) (hash : List Nat) (c1 c2 : Nat) (rest : List Nat),
      hash.length = 56 → validUtf8 hash = true → ¬ (c1 = 13 ∧ c2 = 10) →
      TrojanRequest.read_from valid_hashes (hash ++ [c1, c2] ++ rest) =
        Except.ok Option.none) ∧
    (∀ (valid_hashes : List (List Nat)) (hash : List Nat) (tail : List Nat),
      hash.length = 56 → validUtf8 hash = true → tail.length < 2 →
      TrojanRequest.read_from valid_hashes (hash ++ tail) = Except.ok Option.none) ∧
    (∀ (valid_hashes : List (List Nat)) (hash : List Nat) (cmd : Nat) (rest : List Nat),
      hash.length = 56 → validUtf8 hash = true →
      TrojanAuthenticationManager.verify_password_hash valid_hashes hash = true →
      cmd ≠ 1 → cmd ≠ 3 →
      TrojanRequest.read_from valid_hashes (hash ++ [13, 10] ++ (cmd :: rest)) =
        Except.error ()) := by
  refine ⟨?_, ?_, ?_, ?_⟩
  · intro valid_hashes hash rest hlen hutf hverify
    have hre : readExact 56 (hash ++ 13 :: 10 :: rest) =
        some (hash, 13 :: 10 :: rest) := by
      rw [← hlen]
      exact readExact_append hash (13 :: 10 :: rest)
    simp [TrojanRequest.read_from, hre, readExact_cons_two, hutf, hverify]
  · intro valid_hashes hash c1 c2 rest hlen hutf hcrlf
    have hre : readExact 56 (hash ++ c1 :: c2 :: rest) =
        some (hash, c1 :: c2 :: rest) := by
      rw [← hlen]
      exact readExact_append hash (c1 :: c2 :: rest)
    have hne : ¬ ([c1, c2] = [13, 10]) := by
      intro hcontra
      apply hcrlf
      simpa using hcontra
    simp [TrojanRequest.read_from, hre, readExact_cons_two, hutf, hne]
  · intro valid_hashes hash tail hlen hutf htail
    have hre : readExact 56 (hash ++ tail) = some (hash, tail) := by
      rw [← hlen]
      exact readExact_append hash tail
    have h2 : ¬ (2 ≤ tail.length) := by omega
    have hre2 : readExact 2 tail = Option.none := by
      simp [readExact, h2]
    simp [TrojanRequest.read_from, hre, hre2, hutf]
  · intro valid_hashes hash cmd rest hlen hutf hverify h1 h3
    have hre : readExact 56 (hash ++ 13 :: 10 :: cmd :: rest) =
        some (hash, 13 :: 10 :: cmd :: rest) := by
      rw [← hlen]
      exact readExact_append hash (13 :: 10 :: cmd :: rest)
    simp [TrojanRequest.read_from, hre, readExact_cons_two, hutf, hverify,
      readU8, TrojanCommandType.from_u8, h1, h3]

set_option maxRecDepth 40000 in
/-- C5 witness: the amended statement applied at an accepted concrete
hash with command byte 2, and at an unknown hash. -/
theorem c5_mismatch_behavior_witness :
    ((List.replicate 56 97).length = 56 ∧
      validUtf8 (List.replicate 56 97) = true ∧
      TrojanAuthenticationManager.verify_password_hash [] (List.replicate 56 97) = false ∧
      TrojanRequest.read_from [] (List.replicate 56 97 ++ [13, 10] ++ [2]) =
        Except.ok Option.none) ∧
    (([13] : List Nat).length < 2 ∧
      TrojanRequest.read_from [] (List.replicate 56 97 ++ [13]) =
        Except.ok Option.none) ∧
    (TrojanAuthenticationManager.verify_password_hash [List.replicate 56 97]
        (List.replicate 56 97) = true ∧
      TrojanRequest.read_from [List.replicate 56 97]
          (List.replicate 56 97 ++ [13, 10] ++ (2 :: [])) = Except.error ()) := by
  refine ⟨⟨by decide, by decide, by decide, ?_⟩, ⟨by decide, ?_⟩, by decide, ?_⟩
  · exact c5_mismatch_behavior.1 [] (List.replicate 56 97) [2]
      (by decide) (by decide) (by decide)
  · exact c5_mismatch_behavior.2.2.1 [] (List.replicate 56 97) [13]
      (by decide) (by decide) (by decide)
  · exact c5_mismatch_behavior.2.2.2 [List.replicate 56 97] (List.replicate 56 97) 2 []
      (by decide) (by decide) (by decide) (by decide) (by decide)

/-- C1: on a connection whose gate was never signalled (wait_for_auth
returns Option.none after its timeout), PacketProcessor::process still
performs the upstream UDP send and reports success, because the source
drops the gate outcome: the command is not rejected. -/
theorem c1_unauthenticated_packet_sends_upstream :
    (PacketProcessor.process Option.none [] c1_packet fixedResolve (some [104, 105])).map
        (fun x => x.1.upstream_sends) =
      some [(SockAddr.v4 2130706433 9, [97, 98, 99])] ∧
    (PacketProcessor.process Option.none [] c1_packet fixedResolve (some [104, 105])).map
        (fun x => x.1.result) =
      some (some true) := by
  constructor <;>
    simp [PacketProcessor.process, Packet.only_one_frag, c1_packet, fixedResolve,
      RuntimeContext.get_session, alLookup, alUpsert]

/-- C2: a user with five failed attempts recorded inside the one-hour
window is answered RateLimited, but the keying-material exporter has
already been invoked when that answer is produced: the source calls
export_keying_material before its rate-limit check. -/
theorem c2_rate_limited_attempt_calls_exporter :
    TuicAuthenticationManager.authenticate [(7, [1, 2, 3])]
        [(7, { count := 5, first_failure := 100 })] 7 (List.replicate 32 0)
        (some (List.replicate 32 9)) 200 =
      { result := AuthResult.rateLimited,
        failed_attempts := [(7, { count := 5, first_failure := 100 })],
        exporter_called := true } := by
  rfl

/-- C4: a fragment whose frag_id (7) is not below its frag_total (3)
makes UdpSession::accept index its fragment vector out of bounds, a Rust
panic (the Option.none result); the parallel store
UdpSessionManager / ReassemblyBuffer rejects the same fragment cleanly
with InvalidFragmentId and an unchanged buffer. -/
theorem c4_accept_panics_on_bad_frag_id :
    UdpSession.accept UdpSession.new c4_packet = Option.none ∧
    ReassemblyBuffer.new 3 0 = some c4_buffer ∧
    ReassemblyBuffer.insert c4_buffer 7 [42] Option.none 0 =
      (Except.error UdpError.invalidFragmentId, c4_buffer) := by
  refine ⟨?_, ?_, ?_⟩ <;> rfl

/-- C6: Dissociate on an unknown assoc_id is a success no-op; but after
fragment 0 of a 3-fragment packet is buffered, a Dissociate for that
assoc_id (which only clears the UdpSessionManager map) does not clear the
RuntimeContext session state used by PacketProcessor, so fragments 1 and
2 still complete the old packet and trigger the upstream exchange with
the assembled payload. -/
theorem c6_dissociate_leaves_old_fragments :
    ConnState.processDissociate { udp_sessions := [], manager_sessions := [] }
        (some true) 77 c6_dissociate =
      (true, { udp_sessions := [], manager_sessions := [] }) ∧
    c6_run.map (fun x => x.1.upstream_sends) =
      some [(SockAddr.v4 2130706433 9, [0, 1, 2, 3, 4, 5])] := by
  constructor
  · rfl
  · simp +decide [c6_run, ConnState.processPacket, ConnState.processDissociate,
      PacketProcessor.process, DissociateProcess.process,
      UdpSessionManager.remove_session, mgrRemove, RuntimeContext.get_session,
      alLookup, alUpsert, alRemove, UdpSession.new, UdpSession.accept,
      UdpSession.take_fragmented_packet, Packet.only_one_frag, c6_frag, c6_addr,
      c6_dissociate, fixedResolve, countOnes128]
